import Mathlib

/-!
Verification of the proto-types value layer.

A shallow embedding, in Lean 4, of the normalization, checked-arithmetic and
partial-ordering core of the `proto-types` Rust library (the `Fraction`,
`Money`, `Date`, `Duration` and `Timestamp` value types), together with
theorems settling the specification claims about it.

Machine integers (`i32`, `i64`, `i128`) are modelled as `Int` with explicit
range checks where the source performs checked arithmetic or narrowing casts;
Rust's `/` and `%` on signed integers (truncation toward zero) are `Int.tdiv`
and `Int.tmod`.
-/

namespace ProtoTypes

/-! ## Machine-integer model -/

def I64_MIN : Int := -9223372036854775808

def I64_MAX : Int := 9223372036854775807

def I32_MIN : Int := -2147483648

def I32_MAX : Int := 2147483647

def I128_MIN : Int := -170141183460469231731687303715884105728

def I128_MAX : Int := 170141183460469231731687303715884105727

/-- `i64` checked narrowing: models `i64::checked_add` / `i64::try_from` /
`checked_sub` result checks — `some` exactly when the mathematical result is
representable. -/
def checkedI64 (x : Int) : Option Int :=
  if I64_MIN ≤ x ∧ x ≤ I64_MAX then some x else none

/-- `i32` checked narrowing (`i32::checked_add` / `i32::try_from`). -/
def checkedI32 (x : Int) : Option Int :=
  if I32_MIN ≤ x ∧ x ≤ I32_MAX then some x else none

/-- `i128` overflow check for `checked_mul` / `checked_add` on `i128`. -/
def checkedI128 (x : Int) : Option Int :=
  if I128_MIN ≤ x ∧ x ≤ I128_MAX then some x else none

/-- `i64::saturating_add`-style clamping at the 64-bit signed bounds. -/
def saturatingI64 (x : Int) : Int := max I64_MIN (min I64_MAX x)

/-- `i128::checked_div`: `none` iff the divisor is zero or the division is
`i128::MIN / -1` (the one overflowing case). -/
def checkedDiv128 (a b : Int) : Option Int :=
  if b = 0 then none
  else if a = I128_MIN ∧ b = -1 then none
  else some (a.tdiv b)

/-- `u64 -> i64` bit reinterpretation (`cast_signed`): value-preserving below
`2^63`, wrapping above. -/
def castSigned64 (u : Nat) : Int :=
  if u < 2 ^ 63 then (u : Int) else (u : Int) - 2 ^ 64

/-! ## Fraction (`common/fraction.rs`) -/

structure Fraction where
  numerator : Int
  denominator : Int
deriving DecidableEq

inductive FractionError where
  | zeroDenominator
  | overflow
  | undefined
deriving DecidableEq

/-- `Fraction::gcd`: the source runs the Euclidean loop
(`while ub != 0 { temp = ub; ub = ua % ub; ua = temp }`) on the unsigned
absolute values and returns a `u64`; that loop computes exactly
`Nat.gcd` of the two absolute values. -/
def Fraction.gcd (a b : Int) : Nat :=
  Nat.gcd a.natAbs b.natAbs

/-- Maps `Option` (checked arithmetic) to the `Overflow` error, as the
source's `.ok_or(FractionError::Overflow)?`. -/
def toOverflow (o : Option Int) : Except FractionError Int :=
  match o with
  | none => .error .overflow
  | some x => .ok x

/-- `Fraction::new`. -/
def Fraction.new (numerator denominator : Int) : Except FractionError Fraction :=
  if denominator = 0 then .error .zeroDenominator
  else if denominator = I64_MIN then .error .overflow
  else if denominator < 0 ∧ numerator = I64_MIN then .error .overflow
  else
    let num := if denominator < 0 then -numerator else numerator
    let den := if denominator < 0 then -denominator else denominator
    let cd := castSigned64 (Fraction.gcd num den)
    .ok ⟨num.tdiv cd, den.tdiv cd⟩

/-- `Fraction::lcm`. -/
def Fraction.lcm (a b : Int) : Except FractionError Int :=
  if a = 0 ∨ b = 0 then .error .zeroDenominator
  else
    match toOverflow (checkedDiv128 a (Fraction.gcd a b : Nat)) with
    | .error e => .error e
    | .ok term1 => toOverflow (checkedI128 (term1 * b))

/-- `Fraction::checked_add`. -/
def Fraction.checkedAdd (self other : Fraction) : Except FractionError Fraction := do
  let commonDenominator ← Fraction.lcm self.denominator other.denominator
  let factorSelf ← toOverflow (checkedDiv128 commonDenominator self.denominator)
  let factorOther ← toOverflow (checkedDiv128 commonDenominator other.denominator)
  let newNumeratorLeft ← toOverflow (checkedI128 (self.numerator * factorSelf))
  let newNumeratorRight ← toOverflow (checkedI128 (other.numerator * factorOther))
  let newNumerator ← toOverflow (checkedI128 (newNumeratorLeft + newNumeratorRight))
  let numI64 ← toOverflow (checkedI64 newNumerator)
  let denI64 ← toOverflow (checkedI64 commonDenominator)
  Fraction.new numI64 denI64

/-- `PartialOrd for Fraction`: incomparable when either denominator is
non-positive, otherwise cross-multiplied comparison in `i128`. -/
def Fraction.partialCmp (self other : Fraction) : Option Ordering :=
  if self.denominator ≤ 0 ∨ other.denominator ≤ 0 then none
  else some (compare (self.numerator * other.denominator) (other.numerator * self.denominator))


/-! ## Date (`common/date.rs`) -/

structure Date where
  year : Int
  month : Int
  day : Int
deriving DecidableEq

inductive DateError where
  | invalidYear (msg : String)
  | invalidMonth (msg : String)
  | invalidDay (msg : String)
deriving DecidableEq

/-- `DateKind`: which combination of fields a `Date` carries. -/
inductive DateKind where
  | full
  | yearOnly
  | yearAndMonth
  | monthAndDay
deriving DecidableEq

/-- `Date::kind`. -/
def Date.kind (self : Date) : DateKind :=
  if self.year ≠ 0 ∧ self.month = 0 ∧ self.day = 0 then .yearOnly
  else if self.year ≠ 0 ∧ self.month ≠ 0 ∧ self.day = 0 then .yearAndMonth
  else if self.year = 0 ∧ self.month ≠ 0 ∧ self.day ≠ 0 then .monthAndDay
  else .full

/-- `is_leap_year` (Rust `%` on `i32` is truncating, hence `Int.tmod`). -/
def isLeapYear (year : Int) : Bool :=
  year.tmod 4 = 0 ∧ (year.tmod 100 ≠ 0 ∨ year.tmod 400 = 0)

/-- `days_in_month`: the source's `match` on the month, with the
recurring-date special case allowing Feb 29 when `year == 0`. -/
def daysInMonth (month year : Int) : Int :=
  if month = 1 ∨ month = 3 ∨ month = 5 ∨ month = 7 ∨ month = 8 ∨ month = 10 ∨ month = 12 then
    31
  else if month = 4 ∨ month = 6 ∨ month = 9 ∨ month = 11 then 30
  else if month = 2 then
    if year = 0 ∨ isLeapYear year then 29 else 28
  else 0

/-- `validate_date`, with the source's early returns flattened into an
if-chain (each `return Err` guard in order, then the final day check). -/
def validateDate (year month day : Int) : Except DateError Unit :=
  if ¬(0 ≤ year ∧ year ≤ 9999) then
    .error (.invalidYear "Invalid year value (must be within 0 and 9999)")
  else if ¬(0 ≤ month ∧ month ≤ 12) then
    .error (.invalidMonth "Invalid month value (must be within 0 and 12)")
  else if ¬(0 ≤ day ∧ day ≤ 31) then
    .error (.invalidDay "Invalid day value (must be within 0 and 31)")
  else if year = 0 ∧ month = 0 then
    .error (.invalidMonth "The month cannot be set to 0 if the year is also set to 0")
  else if year = 0 ∧ day = 0 then
    .error (.invalidDay "The day cannot be set to 0 if the year is also set to 0")
  else if year ≠ 0 ∧ month = 0 ∧ day ≠ 0 then
    .error (.invalidMonth "The month cannot be 0 if the day is set")
  else if year ≠ 0 ∧ month = 0 then .ok ()
  else if day ≠ 0 ∧ day > daysInMonth month year then
    .error (.invalidDay ("Invalid day " ++ toString day ++ " for month " ++ toString month
      ++ " (max is " ++ toString (daysInMonth month year) ++ " for year " ++ toString year ++ ")"))
  else .ok ()

/-- `Date::new`. -/
def Date.new (year month day : Int) : Except DateError Date :=
  match validateDate year month day with
  | .error e => .error e
  | .ok _ => .ok ⟨year, month, day⟩

/-- `Date::is_valid`. -/
def Date.isValid (self : Date) : Bool :=
  match validateDate self.year self.month self.day with
  | .ok _ => true
  | .error _ => false

/-- `PartialOrd for Date`. -/
def Date.partialCmp (self other : Date) : Option Ordering :=
  if ¬(self.isValid ∧ other.isValid) then none
  else if self.kind ≠ other.kind then none
  else
    some ((compare self.year other.year).then
      ((compare self.month other.month).then (compare self.day other.day)))

/-- Lexicographic comparison of the `(year, month, day)` triple, written from
the spec's words, to compare against the implementation's chain of `cmp`s. -/
def dateLexSpec (a b : Date) : Ordering :=
  if a.year < b.year then .lt
  else if b.year < a.year then .gt
  else if a.month < b.month then .lt
  else if b.month < a.month then .gt
  else if a.day < b.day then .lt
  else if b.day < a.day then .gt
  else .eq


/-! ## Money (`common/money.rs`) -/

structure Money where
  currencyCode : String
  units : Int
  nanos : Int
deriving DecidableEq

inductive MoneyError where
  | currencyMismatch (expected found : String)
  | outOfRange
deriving DecidableEq

def NANO_FACTOR : Int := 1000000000

/-- `i32::abs` as executed by release-mode Rust: wraps at `i32::MIN`
(`i32::MIN.abs() == i32::MIN`; a debug build panics there instead), the
mathematical absolute value everywhere else. -/
def i32Abs (x : Int) : Int := if x = I32_MIN then I32_MIN else |x|

/-- Sign-alignment half of `normalize_money_fields_checked` (the two
`checked_sub(1)`/`checked_add(NANO_FACTOR)` branches). -/
def alignMoney (units nanos : Int) : Except MoneyError (Int × Int) :=
  if units > 0 ∧ nanos < 0 then
    match checkedI64 (units - 1), checkedI32 (nanos + NANO_FACTOR) with
    | some u2, some n2 => .ok (u2, n2)
    | _, _ => .error .outOfRange
  else if units < 0 ∧ nanos > 0 then
    match checkedI64 (units + 1), checkedI32 (nanos - NANO_FACTOR) with
    | some u2, some n2 => .ok (u2, n2)
    | _, _ => .error .outOfRange
  else .ok (units, nanos)

/-- `normalize_money_fields_checked`: carry fold (when `nanos.abs()` reaches
the base) followed by sign alignment. -/
def normalizeMoneyFieldsChecked (units nanos : Int) : Except MoneyError (Int × Int) :=
  if i32Abs nanos ≥ NANO_FACTOR then
    match checkedI64 (units + nanos.tdiv NANO_FACTOR) with
    | none => .error .outOfRange
    | some u => alignMoney u (nanos.tmod NANO_FACTOR)
  else alignMoney units nanos

/-- `Money::total_nanos` (`i128`, exact for `i64`/`i32` fields). -/
def Money.totalNanos (self : Money) : Int :=
  self.units * NANO_FACTOR + self.nanos

/-- `fields_from_total_nanos`. -/
def fieldsFromTotalNanos (total : Int) : Except MoneyError (Int × Int) :=
  match checkedI64 (total.tdiv NANO_FACTOR) with
  | none => .error .outOfRange
  | some units =>
    match checkedI32 (total.tmod NANO_FACTOR) with
    | none => .error .outOfRange
    | some nanos => .ok (units, nanos)

/-- `Money::from_total_nanos`. -/
def Money.fromTotalNanos (currency : String) (total : Int) : Except MoneyError Money :=
  match fieldsFromTotalNanos total with
  | .error e => .error e
  | .ok (units, nanos) => .ok ⟨currency, units, nanos⟩

/-- `PartialOrd for Money`. -/
def Money.partialCmp (self other : Money) : Option Ordering :=
  if self.currencyCode ≠ other.currencyCode then none
  else some (compare self.totalNanos other.totalNanos)

/-- `Money::normalize`. -/
def Money.normalize (self : Money) : Except MoneyError Money :=
  match normalizeMoneyFieldsChecked self.units self.nanos with
  | .error e => .error e
  | .ok (u, n) => .ok ⟨self.currencyCode, u, n⟩

/-- `Money::new`. -/
def Money.new (currencyCode : String) (units nanos : Int) : Except MoneyError Money :=
  match normalizeMoneyFieldsChecked units nanos with
  | .error e => .error e
  | .ok (u, n) => .ok ⟨currencyCode, u, n⟩

/-- `Money::try_add`. -/
def Money.tryAdd (self other : Money) : Except MoneyError Money :=
  if self.currencyCode ≠ other.currencyCode then
    .error (.currencyMismatch self.currencyCode other.currencyCode)
  else
    match checkedI128 (self.totalNanos + other.totalNanos) with
    | none => .error .outOfRange
    | some total => Money.fromTotalNanos self.currencyCode total

/-- `Money::try_sub`. -/
def Money.trySub (self other : Money) : Except MoneyError Money :=
  if self.currencyCode ≠ other.currencyCode then
    .error (.currencyMismatch self.currencyCode other.currencyCode)
  else
    match checkedI128 (self.totalNanos - other.totalNanos) with
    | none => .error .outOfRange
    | some total => Money.fromTotalNanos self.currencyCode total

/-- `{:0width$}` zero-padding of a non-negative number's digit string. -/
def padZeros (width : Nat) (s : String) : String :=
  String.mk (List.replicate (width - s.length) '0') ++ s

/-- Carry-fold stage of `Money::to_formatted_string` (done inline in `i128`
in the source, hence no overflow checks). -/
def moneyFmtFold (units nanos : Int) : Int × Int :=
  if nanos ≥ NANO_FACTOR ∨ nanos ≤ -NANO_FACTOR then
    (units + nanos.tdiv NANO_FACTOR, nanos.tmod NANO_FACTOR)
  else (units, nanos)

/-- Sign re-alignment stage of `Money::to_formatted_string`. -/
def moneyFmtAlign (p : Int × Int) : Int × Int :=
  if p.1 > 0 ∧ p.2 < 0 then (p.1 - 1, p.2 + NANO_FACTOR)
  else if p.1 < 0 ∧ p.2 > 0 then (p.1 + 1, p.2 - NANO_FACTOR)
  else p

/-- Rounding stage of `Money::to_formatted_string`: returns
`(rounded_nanos, units_carry)`; rounds half-up only when actually truncating
(`rounding_power > 1`), carrying into the units when the display power of ten
is reached. -/
def moneyFmtRound (nanos2 : Int) (decimalPlaces : Nat) : Int × Int :=
  if 0 < decimalPlaces then
    let powerOf10ForDisplay : Int := 10 ^ decimalPlaces
    let roundingPower : Int := 10 ^ (9 - decimalPlaces)
    let absNanos := |nanos2|
    let remainderForRounding := absNanos.tmod roundingPower
    let roundedNanos := absNanos.tdiv roundingPower
    let roundedNanos :=
      if roundingPower > 1 ∧ remainderForRounding ≥ roundingPower.tdiv 2 then roundedNanos + 1
      else roundedNanos
    if roundedNanos ≥ powerOf10ForDisplay then (0, 1) else (roundedNanos, 0)
  else (0, 0)

/-- `Money::to_formatted_string`. -/
def Money.toFormattedString (self : Money) (symbol : String) (decimalPlaces : Nat) : String :=
  let decimalPlaces := min 9 decimalPlaces
  let p := moneyFmtAlign (moneyFmtFold self.units self.nanos)
  let rn := moneyFmtRound p.2 decimalPlaces
  let isNegative := p.1 < 0 ∨ (p.1 = 0 ∧ p.2 < 0)
  let finalUnitsAbs := |p.1| + rn.2
  (if isNegative then "-" else "") ++
    (symbol ++ (toString finalUnitsAbs ++
      (if 0 < decimalPlaces then "." ++ padZeros decimalPlaces (toString rn.1) else "")))


/-! ## Duration (`duration/`) and Timestamp (`timestamp/`)

`Duration::normalize` / `normalized` and `Timestamp::new` / `normalize` live
in repository files that are not part of the provided sources
(`duration/base.rs`, `duration_impls.rs`, and the timestamp base module);
they are modelled from the spec below. Everything else follows
`duration_operations.rs`, `formatting.rs`, `mod.rs` and
`timestamp_operations.rs`. -/

structure Duration where
  seconds : Int
  nanos : Int
deriving DecidableEq

structure Timestamp where
  seconds : Int
  nanos : Int
deriving DecidableEq

/-- `i64 -> i32` wrapping cast (`as i32`). -/
def wrapI32 (x : Int) : Int := (x + 2 ^ 31) % 2 ^ 32 - 2 ^ 31

/-- `Duration::is_negative` (`duration/mod.rs`). -/
def Duration.isNegative (self : Duration) : Bool :=
  self.seconds < 0 ∨ (self.seconds = 0 ∧ self.nanos < 0)

/-- Modelled from the spec: `Duration::normalized` (in `duration/base.rs`,
absent from the sources). §4.2/§3: fold the nanos carry into the seconds so
that `|nanos| < 1e9`, align the signs of the two fields, and saturate the
seconds at the `i64` bounds ("seconds is wide enough to absorb any nanos
carry via saturating semantics... during construction"). -/
def Duration.normalized (self : Duration) : Duration :=
  let s := saturatingI64 (self.seconds + self.nanos.tdiv 1000000000)
  let n := self.nanos.tmod 1000000000
  if s > 0 ∧ n < 0 then ⟨s - 1, n + 1000000000⟩
  else if s < 0 ∧ n > 0 then ⟨s + 1, n - 1000000000⟩
  else ⟨s, n⟩

/-- `Duration::new` (`duration/mod.rs`): construct then normalize (the
normalize call itself is the spec-modelled `Duration.normalized`). -/
def Duration.new (seconds nanos : Int) : Duration :=
  Duration.normalized ⟨seconds, nanos⟩

/-- `Duration::checked_add_raw`. -/
def Duration.checkedAddRaw (self : Duration) (rhsS rhsN : Int) : Option Duration :=
  match checkedI64 (self.seconds + rhsS) with
  | none => none
  | some s =>
    let nTotal := self.nanos + rhsN
    match
      (if nTotal ≥ 1000000000 then
        match checkedI64 (s + 1) with
        | none => none
        | some s2 => some (s2, nTotal - 1000000000)
      else if nTotal ≤ -1000000000 then
        match checkedI64 (s - 1) with
        | none => none
        | some s2 => some (s2, nTotal + 1000000000)
      else some (s, nTotal)) with
    | none => none
    | some (s2, n2) =>
      if s2 > 0 ∧ n2 < 0 then
        match checkedI64 (s2 - 1) with
        | none => none
        | some s3 => some ⟨s3, wrapI32 (n2 + 1000000000)⟩
      else if s2 < 0 ∧ n2 > 0 then
        match checkedI64 (s2 + 1) with
        | none => none
        | some s3 => some ⟨s3, wrapI32 (n2 - 1000000000)⟩
      else some ⟨s2, wrapI32 n2⟩

/-- `Duration::checked_add`. -/
def Duration.checkedAdd (self other : Duration) : Option Duration :=
  self.checkedAddRaw other.seconds other.nanos

/-- Modelled from the spec: `Timestamp::normalize` (in the timestamp base
module, absent from the sources). §3: a `Timestamp`'s nanos are always in
`[0, 1e9)` (the carry is floored into the seconds), and §4.3: instant
arithmetic saturates at the `i64` bounds instead of failing. -/
def Timestamp.normalized (self : Timestamp) : Timestamp :=
  ⟨saturatingI64 (self.seconds + self.nanos.fdiv 1000000000),
    self.nanos.emod 1000000000⟩

/-- Modelled from the spec: `Timestamp::new`: construct then normalize. -/
def Timestamp.new (seconds nanos : Int) : Timestamp :=
  Timestamp.normalized ⟨seconds, nanos⟩

/-- `Add<&Duration> for &Timestamp` (`timestamp_operations.rs`): normalize
the duration, saturating-add the seconds, plain-add the nanos, normalize. -/
def Timestamp.addDur (self : Timestamp) (rhs : Duration) : Timestamp :=
  let duration := rhs.normalized
  Timestamp.normalized
    ⟨saturatingI64 (self.seconds + duration.seconds), self.nanos + duration.nanos⟩

/-- Modelled from the spec: the approximate seconds-per-month constant used
by `Duration::get_data` (`duration_data.rs`, absent from the sources); §4.2
and §9 document it as an approximate, documented constant (a twelfth of a
365.25-day year). Only durations shorter than a month are evaluated through
it here. -/
def SECONDS_PER_MONTH : Int := 2629800

/-- Modelled from the spec: `DurationData`, the decomposition result of
`Duration::get_data` (`duration_data.rs`, absent from the sources). -/
structure DurationData where
  months : Int
  days : Int
  hours : Int
  minutes : Int
  seconds : Int
  isNegative : Bool
deriving DecidableEq

/-- Modelled from the spec: `Duration::get_data` (`duration_data.rs`, absent
from the sources). §4.2: "decomposes the absolute normalized duration
greedily into months (using an approximate seconds-per-month), days, hours,
minutes, seconds (whole-unit truncation at each step, largest unit first)". -/
def Duration.getData (self : Duration) : DurationData :=
  let norm := self.normalized
  let total : Int := |norm.seconds|
  let months := total / SECONDS_PER_MONTH
  let rem1 := total % SECONDS_PER_MONTH
  let days := rem1 / 86400
  let rem2 := rem1 % 86400
  let hours := rem2 / 3600
  let rem3 := rem2 % 3600
  let minutes := rem3 / 60
  let seconds := rem3 % 60
  ⟨months, days, hours, minutes, seconds, self.isNegative⟩

/-- The `Display` strings of the `duration_units.rs` wrappers
(`"1 month"` / `"2 months"`, etc.) combined with `format_if_nonzero`. -/
def formatIfNonzero (value : Int) (unitName : String) : Option String :=
  if value = 0 then none
  else some (toString value ++ " " ++ unitName ++ (if value ≠ 1 then "s" else ""))

/-- `Duration::to_human_readable_string` (`duration/formatting.rs`). -/
def Duration.toHumanReadableString (self : Duration) : String :=
  let data := self.getData
  let parts := [formatIfNonzero data.months "month", formatIfNonzero data.days "day",
    formatIfNonzero data.hours "hour", formatIfNonzero data.minutes "minute",
    formatIfNonzero data.seconds "second"].filterMap id
  if parts.isEmpty then "0 seconds"
  else
    let sign := if data.isNegative then "- " else ""
    match parts with
    | [p] => p
    | [p1, p2] => sign ++ p1 ++ " and " ++ p2
    | _ => sign ++ String.intercalate " " parts.dropLast ++ " and " ++ parts.getLastD ""

/-! ## Theorems -/


theorem tdiv_pos_of_dvd {g d : Int} (hg : 0 < g) (hd : 0 < d) (hdvd : g ∣ d) :
    0 < d.tdiv g := by
  have h1 : g * d.tdiv g = d := Int.mul_tdiv_cancel' hdvd
  by_contra h'
  push_neg at h'
  nlinarith

theorem new_core (n d : Int) (hd : 0 < d) (hd2 : d < 2 ^ 63) :
    Fraction.gcd (n.tdiv (Fraction.gcd n d : Nat)) (d.tdiv (Fraction.gcd n d : Nat)) = 1 ∧
    0 < d.tdiv (Fraction.gcd n d : Nat) ∧
    (n.tdiv (Fraction.gcd n d : Nat)) * d = n * (d.tdiv (Fraction.gcd n d : Nat)) ∧
    castSigned64 (Fraction.gcd n d) = ((Fraction.gcd n d : Nat) : Int) := by
  have hgcd : Fraction.gcd n d = Int.gcd n d := rfl
  have hdvd_n : ((Fraction.gcd n d : Nat) : Int) ∣ n := by rw [hgcd]; exact Int.gcd_dvd_left
  have hdvd_d : ((Fraction.gcd n d : Nat) : Int) ∣ d := by rw [hgcd]; exact Int.gcd_dvd_right
  have hgpos : 0 < Fraction.gcd n d := by
    rw [hgcd]; exact Int.gcd_pos_iff.mpr (Or.inr (ne_of_gt hd))
  have hgposZ : (0 : Int) < (Fraction.gcd n d : Nat) := by exact_mod_cast hgpos
  have hle : (Fraction.gcd n d : Int) ≤ d := Int.le_of_dvd hd hdvd_d
  refine ⟨?_, tdiv_pos_of_dvd hgposZ hd hdvd_d, ?_, ?_⟩
  · show Nat.gcd _ _ = 1
    rw [Int.natAbs_tdiv, Int.natAbs_tdiv]
    simp only [Int.natAbs_ofNat]
    have h2 : Nat.Coprime (n.natAbs / Nat.gcd n.natAbs d.natAbs)
        (d.natAbs / Nat.gcd n.natAbs d.natAbs) :=
      Nat.coprime_div_gcd_div_gcd hgpos
    exact h2
  · calc (n.tdiv (Fraction.gcd n d : Nat)) * d
        = d * (n.tdiv (Fraction.gcd n d : Nat)) := mul_comm _ _
      _ = (d * n).tdiv (Fraction.gcd n d : Nat) := (Int.mul_tdiv_assoc d hdvd_n).symm
      _ = (n * d).tdiv (Fraction.gcd n d : Nat) := by rw [mul_comm d n]
      _ = n * (d.tdiv (Fraction.gcd n d : Nat)) := Int.mul_tdiv_assoc n hdvd_d
  · have hlt : Fraction.gcd n d < 2 ^ 63 := by
      have h3 : (Fraction.gcd n d : Int) < 2 ^ 63 := lt_of_le_of_lt hle hd2
      exact_mod_cast h3
    rw [castSigned64, if_pos hlt]

theorem fraction_new_ok_spec {num den : Int} {f : Fraction}
    (hden₁ : I64_MIN < den) (hden₂ : den ≤ I64_MAX)
    (h : Fraction.new num den = .ok f) :
    Fraction.gcd f.numerator f.denominator = 1 ∧ 0 < f.denominator ∧
      f.numerator * den = num * f.denominator := by
  rw [Fraction.new] at h
  split_ifs at h with h0 hmin hflip hneg
  · -- den < 0: the source flips both signs
    simp only [Except.ok.injEq] at h
    have hd : 0 < -den := by omega
    have hd2 : -den < 2 ^ 63 := by rw [I64_MIN] at hden₁; omega
    obtain ⟨hg, hpos', hval, hcast⟩ := new_core (-num) (-den) hd hd2
    rw [hcast] at h
    subst h
    exact ⟨hg, hpos', by linear_combination -hval⟩
  · -- den > 0
    simp only [Except.ok.injEq] at h
    have hpos : 0 < den := by omega
    have hd2 : den < 2 ^ 63 := by rw [I64_MAX] at hden₂; omega
    obtain ⟨hg, hpos', hval, hcast⟩ := new_core num den hpos hd2
    rw [hcast] at h
    subst h
    exact ⟨hg, hpos', hval⟩


/-- C3: `Fraction::new(numerator, denominator)` fails exactly when the
denominator is zero, the denominator is `i64::MIN`, or the denominator is
negative while the numerator is `i64::MIN`; otherwise it succeeds and the
returned fraction is in lowest terms (`gcd == 1`), has a positive
denominator, and denotes the same rational number as `numerator/denominator`. -/
theorem fraction_new_c3 (num den : Int)
    (_hnum₁ : I64_MIN ≤ num) (_hnum₂ : num ≤ I64_MAX)
    (hden₁ : I64_MIN ≤ den) (hden₂ : den ≤ I64_MAX) :
    ((den = 0 ∨ den = I64_MIN ∨ (den < 0 ∧ num = I64_MIN)) →
        ∀ f, Fraction.new num den ≠ .ok f) ∧
    (den ≠ 0 → den ≠ I64_MIN → ¬(den < 0 ∧ num = I64_MIN) →
        ∃ f, Fraction.new num den = .ok f ∧
          Fraction.gcd f.numerator f.denominator = 1 ∧ 0 < f.denominator ∧
          f.numerator * den = num * f.denominator) := by
  constructor
  · rintro (h | h | h) f hf <;> rw [Fraction.new] at hf <;>
      split_ifs at hf
  · intro h0 hmin hflip
    have hok : ∃ f, Fraction.new num den = .ok f := by
      rw [Fraction.new]
      split_ifs <;> first | exact ⟨_, rfl⟩ | tauto
    obtain ⟨f, hf⟩ := hok
    have hden₁' : I64_MIN < den := lt_of_le_of_ne hden₁ (Ne.symm hmin)
    obtain ⟨hg, hp, hv⟩ := fraction_new_ok_spec hden₁' hden₂ hf
    exact ⟨f, hf, hg, hp, hv⟩

/-- Witness for `fraction_new_c3` at the concrete input `(2, 4)`. -/
theorem fraction_new_c3_witness :
    ∃ f, Fraction.new 2 4 = .ok f ∧
      Fraction.gcd f.numerator f.denominator = 1 ∧ 0 < f.denominator ∧
      f.numerator * 4 = 2 * f.denominator :=
  (fraction_new_c3 2 4 (by decide) (by decide) (by decide) (by decide)).2
    (by decide) (by decide) (by decide)

theorem exceptBind_ok {α β ε : Type} {x : Except ε α} {f : α → Except ε β} {b : β}
    (h : x >>= f = .ok b) : ∃ a, x = .ok a ∧ f a = .ok b := by
  cases x with
  | error e => simp [Bind.bind, Except.bind] at h
  | ok a => exact ⟨a, rfl, by simpa [Bind.bind, Except.bind] using h⟩

theorem toOverflow_eq_ok {o : Option Int} {v : Int} (h : toOverflow o = .ok v) :
    o = some v := by
  cases o with
  | none => simp [toOverflow] at h
  | some x => simpa [toOverflow] using h

theorem checkedI128_eq_some {x v : Int} (h : checkedI128 x = some v) : v = x := by
  rw [checkedI128] at h
  split_ifs at h
  exact (Option.some.inj h).symm

theorem checkedI64_eq_some {x v : Int} (h : checkedI64 x = some v) :
    v = x ∧ I64_MIN ≤ x ∧ x ≤ I64_MAX := by
  rw [checkedI64] at h
  split_ifs at h with hb
  exact ⟨(Option.some.inj h).symm, hb⟩

theorem checkedDiv128_eq_some {a b v : Int} (h : checkedDiv128 a b = some v) :
    v = a.tdiv b := by
  rw [checkedDiv128] at h
  split_ifs at h
  exact (Option.some.inj h).symm

theorem lcm_ok_facts {da db l : Int} (hda : 0 < da) (hdb : 0 < db)
    (h : Fraction.lcm da db = .ok l) : 0 < l ∧ da ∣ l ∧ db ∣ l := by
  rw [Fraction.lcm] at h
  rw [if_neg (by push_neg; omega)] at h
  have hgcd : Fraction.gcd da db = Int.gcd da db := rfl
  have hdvd_a : ((Fraction.gcd da db : Nat) : Int) ∣ da := by rw [hgcd]; exact Int.gcd_dvd_left
  have hdvd_b : ((Fraction.gcd da db : Nat) : Int) ∣ db := by rw [hgcd]; exact Int.gcd_dvd_right
  have hgpos : (0 : Int) < (Fraction.gcd da db : Nat) := by
    have : 0 < Fraction.gcd da db := by
      rw [hgcd]; exact Int.gcd_pos_iff.mpr (Or.inr (ne_of_gt hdb))
    exact_mod_cast this
  rw [checkedDiv128, if_neg (by omega), if_neg (by push_neg; intro _; omega)] at h
  simp only [toOverflow] at h
  rw [checkedI128] at h
  split_ifs at h
  simp only [toOverflow, Except.ok.injEq] at h
  have hterm : 0 < da.tdiv (Fraction.gcd da db : Nat) :=
    tdiv_pos_of_dvd hgpos hda hdvd_a
  have hcancel : (da.tdiv (Fraction.gcd da db : Nat)) * (Fraction.gcd da db : Nat) = da :=
    Int.tdiv_mul_cancel hdvd_a
  subst h
  obtain ⟨k, hk⟩ := hdvd_b
  exact ⟨mul_pos hterm hdb,
    ⟨k, by linear_combination (da.tdiv (Fraction.gcd da db : Nat)) * hk + k * hcancel⟩,
    ⟨da.tdiv (Fraction.gcd da db : Nat), mul_comm _ _⟩⟩

/-- C8: `Fraction::checked_add` computes the exact rational sum (whenever it
succeeds on fractions with positive denominators, the result denotes
`a/b + c/d` exactly), and in particular `1/2 + 1/3 = 5/6`, with the operands
and the expected result being exactly what `Fraction::new` produces. -/
theorem fraction_checked_add_c8 :
    (∀ a b c : Fraction, 0 < a.denominator → 0 < b.denominator →
        a.checkedAdd b = .ok c →
        c.numerator * (a.denominator * b.denominator) =
          (a.numerator * b.denominator + b.numerator * a.denominator) * c.denominator) ∧
    Fraction.new 1 2 = .ok ⟨1, 2⟩ ∧ Fraction.new 1 3 = .ok ⟨1, 3⟩ ∧
    Fraction.checkedAdd ⟨1, 2⟩ ⟨1, 3⟩ = Fraction.new 5 6 ∧
    Fraction.new 5 6 = .ok ⟨5, 6⟩ := by
  refine ⟨?_, rfl, rfl, rfl, rfl⟩
  intro a b c ha hb h
  rw [Fraction.checkedAdd] at h
  obtain ⟨l, hl, h⟩ := exceptBind_ok h
  obtain ⟨fs, hfs, h⟩ := exceptBind_ok h
  obtain ⟨fo, hfo, h⟩ := exceptBind_ok h
  obtain ⟨nl, hnl, h⟩ := exceptBind_ok h
  obtain ⟨nr, hnr, h⟩ := exceptBind_ok h
  obtain ⟨nsum, hnsum, h⟩ := exceptBind_ok h
  obtain ⟨n64, hn64, h⟩ := exceptBind_ok h
  obtain ⟨d64, hd64, h⟩ := exceptBind_ok h
  obtain ⟨hlpos, hdvd_da, hdvd_db⟩ := lcm_ok_facts ha hb hl
  have hfs' : fs = l.tdiv a.denominator := checkedDiv128_eq_some (toOverflow_eq_ok hfs)
  have hfo' : fo = l.tdiv b.denominator := checkedDiv128_eq_some (toOverflow_eq_ok hfo)
  have hnl' : nl = a.numerator * fs := checkedI128_eq_some (toOverflow_eq_ok hnl)
  have hnr' : nr = b.numerator * fo := checkedI128_eq_some (toOverflow_eq_ok hnr)
  have hnsum' : nsum = nl + nr := checkedI128_eq_some (toOverflow_eq_ok hnsum)
  obtain ⟨hn64', -, -⟩ := checkedI64_eq_some (toOverflow_eq_ok hn64)
  obtain ⟨hd64', -, hlmax⟩ := checkedI64_eq_some (toOverflow_eq_ok hd64)
  rw [hn64', hnsum', hnl', hnr', hfs', hfo', hd64'] at h
  have hlmin : I64_MIN < l := by
    have : (I64_MIN : Int) < 0 := by rw [I64_MIN]; omega
    omega
  obtain ⟨-, -, hval⟩ := fraction_new_ok_spec hlmin hlmax h
  have hfsc : l.tdiv a.denominator * a.denominator = l := Int.tdiv_mul_cancel hdvd_da
  have hfoc : l.tdiv b.denominator * b.denominator = l := Int.tdiv_mul_cancel hdvd_db
  have key : l * (c.numerator * (a.denominator * b.denominator)) =
      l * ((a.numerator * b.denominator + b.numerator * a.denominator) * c.denominator) := by
    linear_combination (a.denominator * b.denominator) * hval +
      (c.denominator * a.numerator * b.denominator) * hfsc +
      (c.denominator * b.numerator * a.denominator) * hfoc
  exact mul_left_cancel₀ (ne_of_gt hlpos) key


/-- Witness for `fraction_checked_add_c8`: the general exactness statement
instantiated at `1/2 + 1/3 = 5/6`. -/
theorem fraction_checked_add_c8_witness :
    (0 : Int) < 2 ∧ (0 : Int) < 3 ∧
    Fraction.checkedAdd ⟨1, 2⟩ ⟨1, 3⟩ = .ok ⟨5, 6⟩ ∧
    (5 : Int) * (2 * 3) = (1 * 3 + 1 * 2) * 6 :=
  ⟨by decide, by decide, rfl,
    fraction_checked_add_c8.1 ⟨1, 2⟩ ⟨1, 3⟩ ⟨5, 6⟩ (by decide) (by decide) rfl⟩

/-- C10: on unreduced values built by direct field construction, `Fraction`'s
`partial_cmp` (cross-multiplied rational comparison) and structural equality
disagree: the raw fractions `1/2` and `2/4` compare as `Equal` while the
equality test on the fields returns `false`. -/
theorem fraction_cmp_eq_disagree_c10 :
    Fraction.partialCmp ⟨1, 2⟩ ⟨2, 4⟩ = some Ordering.eq ∧
    Fraction.mk 1 2 ≠ Fraction.mk 2 4 :=
  ⟨rfl, by decide⟩

theorem then_chain_eq_lex (a b : Date) :
    (compare a.year b.year).then
      ((compare a.month b.month).then (compare a.day b.day)) = dateLexSpec a b := by
  rw [dateLexSpec]
  rcases lt_trichotomy a.year b.year with h | h | h
  · rw [if_pos h, compare_lt_iff_lt.mpr h]; rfl
  · rw [if_neg (by omega), if_neg (by omega), compare_eq_iff_eq.mpr h]
    show (compare a.month b.month).then (compare a.day b.day) = _
    rcases lt_trichotomy a.month b.month with h2 | h2 | h2
    · rw [if_pos h2, compare_lt_iff_lt.mpr h2]; rfl
    · rw [if_neg (by omega), if_neg (by omega), compare_eq_iff_eq.mpr h2]
      show compare a.day b.day = _
      rcases lt_trichotomy a.day b.day with h3 | h3 | h3
      · rw [if_pos h3, compare_lt_iff_lt.mpr h3]
      · rw [if_neg (by omega), if_neg (by omega), compare_eq_iff_eq.mpr h3]
      · rw [if_neg (by omega), if_pos h3, compare_gt_iff_gt.mpr h3]
    · rw [if_neg (by omega), if_pos h2, compare_gt_iff_gt.mpr h2]; rfl
  · rw [if_neg (by omega), if_pos h, compare_gt_iff_gt.mpr h]; rfl

/-- C2: `Date::partial_cmp` returns `None` unless both operands are
individually valid and share the same kind; when both are valid and of the
same kind the result is the lexicographic comparison of `(year, month, day)`;
in particular `Date::new(2024,1,1)` and `Date::new(2024,0,0)` are
incomparable. -/
theorem date_partial_cmp_c2 :
    (∀ a b : Date, Date.partialCmp a b = none ↔
        ¬(a.isValid = true ∧ b.isValid = true ∧ a.kind = b.kind)) ∧
    (∀ a b : Date, a.isValid = true → b.isValid = true → a.kind = b.kind →
        Date.partialCmp a b = some (dateLexSpec a b)) ∧
    Date.new 2024 1 1 = .ok ⟨2024, 1, 1⟩ ∧
    Date.new 2024 0 0 = .ok ⟨2024, 0, 0⟩ ∧
    Date.partialCmp ⟨2024, 1, 1⟩ ⟨2024, 0, 0⟩ = none := by
  refine ⟨?_, ?_, rfl, rfl, rfl⟩
  · intro a b
    rw [Date.partialCmp]
    split_ifs with h1 h2 <;> simp <;> tauto
  · intro a b ha hb hk
    rw [Date.partialCmp, if_neg (by simp [ha, hb]), if_neg (by simp [hk]),
      then_chain_eq_lex]

/-- Witness for `date_partial_cmp_c2`: two concrete valid full dates of the
same kind compare lexicographically. -/
theorem date_partial_cmp_c2_witness :
    Date.isValid ⟨2024, 5, 10⟩ = true ∧ Date.isValid ⟨2024, 5, 11⟩ = true ∧
    Date.kind ⟨2024, 5, 10⟩ = Date.kind ⟨2024, 5, 11⟩ ∧
    Date.partialCmp ⟨2024, 5, 10⟩ ⟨2024, 5, 11⟩ =
      some (dateLexSpec ⟨2024, 5, 10⟩ ⟨2024, 5, 11⟩) ∧
    dateLexSpec ⟨2024, 5, 10⟩ ⟨2024, 5, 11⟩ = Ordering.lt :=
  ⟨rfl, rfl, rfl, date_partial_cmp_c2.2.1 _ _ rfl rfl rfl, rfl⟩

/-- C7: in the fully-specified range, `Date::new` accepts a day exactly when
it does not exceed `days_in_month` (which applies the Gregorian leap-year
rule); the four documented leap-year examples behave as claimed, and with
`year = 0` (a recurring month/day) February 29 is accepted. -/
theorem date_new_leap_c7 :
    (∀ y m d : Int, 1 ≤ y → y ≤ 9999 → 1 ≤ m → m ≤ 12 → 1 ≤ d → d ≤ 31 →
        (Date.new y m d = .ok ⟨y, m, d⟩ ↔ d ≤ daysInMonth m y)) ∧
    Date.new 2024 2 29 = .ok ⟨2024, 2, 29⟩ ∧
    Date.new 2000 2 29 = .ok ⟨2000, 2, 29⟩ ∧
    (∃ e, Date.new 2023 2 29 = .error e) ∧
    (∃ e, Date.new 1900 2 29 = .error e) ∧
    Date.new 0 2 29 = .ok ⟨0, 2, 29⟩ ∧
    (∃ e, Date.new 0 2 30 = .error e) := by
  refine ⟨?_, rfl, rfl, ⟨_, rfl⟩, ⟨_, rfl⟩, rfl, ⟨_, rfl⟩⟩
  intro y m d hy1 hy2 hm1 hm2 hd1 hd2
  rw [Date.new, validateDate,
    if_neg (show ¬¬(0 ≤ y ∧ y ≤ 9999) by omega),
    if_neg (show ¬¬(0 ≤ m ∧ m ≤ 12) by omega),
    if_neg (show ¬¬(0 ≤ d ∧ d ≤ 31) by omega),
    if_neg (show ¬(y = 0 ∧ m = 0) by omega),
    if_neg (show ¬(y = 0 ∧ d = 0) by omega),
    if_neg (show ¬(y ≠ 0 ∧ m = 0 ∧ d ≠ 0) by omega),
    if_neg (show ¬(y ≠ 0 ∧ m = 0) by omega)]
  by_cases hd : d ≤ daysInMonth m y
  · rw [if_neg (by omega)]
    simp [hd]
  · rw [if_pos ⟨by omega, by omega⟩]
    simp [hd]

/-- Witness for `date_new_leap_c7` at `(2024, 2, 29)`: the day bound is
exactly `days_in_month(2, 2024) = 29`. -/
theorem date_new_leap_c7_witness :
    (Date.new 2024 2 29 = .ok ⟨2024, 2, 29⟩ ↔ (29 : Int) ≤ daysInMonth 2 2024) ∧
    daysInMonth 2 2024 = 29 :=
  ⟨date_new_leap_c7.1 2024 2 29 (by decide) (by decide) (by decide) (by decide)
    (by decide) (by decide), rfl⟩


theorem checkedI32_eq_some {x v : Int} (h : checkedI32 x = some v) :
    v = x ∧ I32_MIN ≤ x ∧ x ≤ I32_MAX := by
  rw [checkedI32] at h
  split_ifs at h with hb
  exact ⟨(Option.some.inj h).symm, hb⟩

theorem tmod_lower_bound (a : Int) {b : Int} (hb : 0 < b) : -b < a.tmod b := by
  rcases le_or_lt 0 a with h | h
  · have := Int.tmod_nonneg b h
    omega
  · have h1 : (-a).tmod b < b := Int.tmod_lt_of_pos _ hb
    have h2 : (-a).tmod b = -(a.tmod b) := by
      rw [Int.tmod_def, Int.tmod_def, Int.neg_tdiv]; ring
    omega

theorem alignMoney_ok {u n u2 n2 : Int} (hn1 : -1000000000 < n) (hn2 : n < 1000000000)
    (h : alignMoney u n = .ok (u2, n2)) :
    |n2| < 1000000000 ∧ ¬(u2 > 0 ∧ n2 < 0) ∧ ¬(u2 < 0 ∧ n2 > 0) ∧
      u2 * 1000000000 + n2 = u * 1000000000 + n := by
  rw [alignMoney] at h
  simp only [NANO_FACTOR] at h
  split_ifs at h with h1 h2
  · cases hc1 : checkedI64 (u - 1) with
    | none => rw [hc1] at h; exact Except.noConfusion h
    | some v =>
      cases hc2 : checkedI32 (n + 1000000000) with
      | none => rw [hc1, hc2] at h; exact Except.noConfusion h
      | some w =>
        rw [hc1, hc2] at h
        obtain ⟨hv, -, -⟩ := checkedI64_eq_some hc1
        have hw := checkedI32_eq_some hc2
        simp only [Except.ok.injEq, Prod.mk.injEq] at h
        rw [abs_lt]
        omega
  · cases hc1 : checkedI64 (u + 1) with
    | none => rw [hc1] at h; exact Except.noConfusion h
    | some v =>
      cases hc2 : checkedI32 (n - 1000000000) with
      | none => rw [hc1, hc2] at h; exact Except.noConfusion h
      | some w =>
        rw [hc1, hc2] at h
        obtain ⟨hv, -, -⟩ := checkedI64_eq_some hc1
        have hw := checkedI32_eq_some hc2
        simp only [Except.ok.injEq, Prod.mk.injEq] at h
        rw [abs_lt]
        omega
  · simp only [Except.ok.injEq, Prod.mk.injEq] at h
    rw [abs_lt]
    omega

/-- C4 (amended): for every `nanos` other than `i32::MIN` (whose absolute
value is unrepresentable, so the source's `nanos.abs()` wraps and the carry
fold is skipped), a successful `normalize_money_fields_checked` yields
`|nanos| < 1e9`, aligned signs, and preserves the total value; `Money::new`
is exactly this normalization, and `Money::new("USD", 1, -100)` normalizes to
`(units 0, nanos 999_999_900)`. -/
theorem money_normalize_c4 :
    (∀ units nanos u2 n2 : Int, I32_MIN < nanos → nanos ≤ I32_MAX →
        normalizeMoneyFieldsChecked units nanos = .ok (u2, n2) →
        |n2| < 1000000000 ∧ ¬(u2 > 0 ∧ n2 < 0) ∧ ¬(u2 < 0 ∧ n2 > 0) ∧
          u2 * 1000000000 + n2 = units * 1000000000 + nanos) ∧
    Money.new "USD" 1 (-100) = .ok ⟨"USD", 0, 999999900⟩ ∧
    (Money.mk "USD" 1 (-100)).normalize = .ok ⟨"USD", 0, 999999900⟩ ∧
    (∀ c u n, Money.new c u n = (Money.mk c u n).normalize) := by
  refine ⟨?_, rfl, rfl, fun c u n => rfl⟩
  intro units nanos u2 n2 hmin hmax h
  rw [normalizeMoneyFieldsChecked] at h
  have hFpos : (0 : Int) < 1000000000 := by omega
  split_ifs at h with hc
  · -- carry fold taken
    cases hchk : checkedI64 (units + nanos.tdiv NANO_FACTOR) with
    | none => rw [hchk] at h; exact Except.noConfusion h
    | some u =>
      rw [hchk] at h
      obtain ⟨hu, -, -⟩ := checkedI64_eq_some hchk
      have hid := Int.tdiv_add_tmod nanos 1000000000
      have hub : nanos.tmod 1000000000 < 1000000000 := Int.tmod_lt_of_pos nanos hFpos
      have hlb : -1000000000 < nanos.tmod 1000000000 := tmod_lower_bound nanos hFpos
      have hmod : nanos.tmod NANO_FACTOR = nanos.tmod 1000000000 := rfl
      rw [hmod] at h
      obtain ⟨b1, b2, b3, b4⟩ := alignMoney_ok hlb hub h
      refine ⟨b1, b2, b3, ?_⟩
      have hdiv : nanos.tdiv NANO_FACTOR = nanos.tdiv 1000000000 := rfl
      rw [hdiv] at hu
      omega
  · -- fold skipped: |nanos| is already below the base
    have hne : nanos ≠ I32_MIN := by omega
    rw [i32Abs, if_neg hne, NANO_FACTOR] at hc
    push_neg at hc
    rw [abs_lt] at hc
    exact alignMoney_ok hc.1 hc.2 h

/-- Counterexample to C4 as stated: at `nanos = i32::MIN` the claim's
"`|nanos| < 1e9` afterwards" fails — `i32::MIN.abs()` wraps, the carry fold
is skipped, and normalization returns nanos `-1_147_483_648`. -/
theorem money_normalize_c4_counterexample :
    normalizeMoneyFieldsChecked 1 (-2147483648) = .ok (0, -1147483648) ∧
    ¬(|(-1147483648 : Int)| < 1000000000) :=
  ⟨rfl, by decide⟩

/-- Witness for `money_normalize_c4` at `units = 1, nanos = -100`. -/
theorem money_normalize_c4_witness :
    |(999999900 : Int)| < 1000000000 ∧ ¬((0 : Int) > 0 ∧ (999999900 : Int) < 0) ∧
    ¬((0 : Int) < 0 ∧ (999999900 : Int) > 0) ∧
    (0 : Int) * 1000000000 + 999999900 = 1 * 1000000000 + (-100) :=
  money_normalize_c4.1 1 (-100) 0 999999900 (by decide) (by decide) rfl

/-- C5: `try_add` and `try_sub` fail with the currency-mismatch error
whenever the currency codes differ — for all field values, so no overflow
error can come first — and `partial_cmp` is `None` there; with equal currency
codes `partial_cmp` is the total order by `units * 1e9 + nanos`. -/
theorem money_currency_gate_c5 :
    (∀ a b : Money, a.currencyCode ≠ b.currencyCode →
        a.tryAdd b = .error (.currencyMismatch a.currencyCode b.currencyCode) ∧
        a.trySub b = .error (.currencyMismatch a.currencyCode b.currencyCode) ∧
        a.partialCmp b = none) ∧
    (∀ a b : Money, a.currencyCode = b.currencyCode →
        a.partialCmp b =
          some (compare (a.units * 1000000000 + a.nanos) (b.units * 1000000000 + b.nanos))) := by
  constructor
  · intro a b h
    exact ⟨by rw [Money.tryAdd, if_pos h], by rw [Money.trySub, if_pos h],
      by rw [Money.partialCmp, if_pos h]⟩
  · intro a b h
    rw [Money.partialCmp, if_neg (by simpa using h)]
    rfl

/-- Witness for `money_currency_gate_c5`: USD vs EUR mismatch, and two USD
amounts ordered by total nanos. -/
theorem money_currency_gate_c5_witness :
    ((Money.mk "USD" 1 0).tryAdd (Money.mk "EUR" 1 0) =
        .error (.currencyMismatch "USD" "EUR") ∧
      (Money.mk "USD" 1 0).trySub (Money.mk "EUR" 1 0) =
        .error (.currencyMismatch "USD" "EUR") ∧
      (Money.mk "USD" 1 0).partialCmp (Money.mk "EUR" 1 0) = none) ∧
    (Money.mk "USD" 10 0).partialCmp (Money.mk "USD" 10 1) =
      some (compare ((10 : Int) * 1000000000 + 0) ((10 : Int) * 1000000000 + 1)) :=
  ⟨money_currency_gate_c5.1 _ _ (by decide), money_currency_gate_c5.2 _ _ rfl⟩

theorem money_fmt_sign_spec (u n : Int) :
    ((moneyFmtAlign (moneyFmtFold u n)).1 < 0 ∨
      ((moneyFmtAlign (moneyFmtFold u n)).1 = 0 ∧ (moneyFmtAlign (moneyFmtFold u n)).2 < 0)) ↔
    u * 1000000000 + n < 0 := by
  have hFpos : (0 : Int) < 1000000000 := by omega
  have hid := Int.tdiv_add_tmod n 1000000000
  have hub : n.tmod 1000000000 < 1000000000 := Int.tmod_lt_of_pos n hFpos
  have hlb : -1000000000 < n.tmod 1000000000 := tmod_lower_bound n hFpos
  rw [moneyFmtFold, moneyFmtAlign]
  simp only [NANO_FACTOR]
  split_ifs <;> simp_all <;> omega


/-- C6: `Money::to_formatted_string` clamps the precision to `[0, 9]` (any
precision above 9 formats identically to 9), prints the negative sign once,
before the symbol, exactly when the amount (`units * 1e9 + nanos`) is
negative, rounds half-up with carry into the whole part, and never rounds at
precision 9; in particular `Money::new("USD",1,5_000_000)` at precision 2
formats as `"$1.01"`. -/
theorem money_to_formatted_string_c6 :
    (∀ (m : Money) (symbol : String) (dp : Nat), 9 ≤ dp →
        m.toFormattedString symbol dp = m.toFormattedString symbol 9) ∧
    (∀ (m : Money) (symbol : String) (dp : Nat), ∃ rest,
        m.toFormattedString symbol dp =
          (if m.units * 1000000000 + m.nanos < 0 then "-" else "") ++ (symbol ++ rest)) ∧
    Money.new "USD" 1 5000000 = .ok ⟨"USD", 1, 5000000⟩ ∧
    (Money.mk "USD" 1 5000000).toFormattedString "$" 2 = "$1.01" ∧
    (Money.mk "USD" 1 999999999).toFormattedString "$" 9 = "$1.999999999" ∧
    (Money.mk "USD" 1 999999999).toFormattedString "$" 2 = "$2.00" := by
  refine ⟨?_, ?_, rfl, rfl, rfl, rfl⟩
  · intro m symbol dp h
    rw [Money.toFormattedString, Money.toFormattedString,
      show min 9 dp = 9 by omega, Nat.min_self]
  · intro m symbol dp
    have key : m.toFormattedString symbol dp =
        (if m.units * 1000000000 + m.nanos < 0 then "-" else "") ++ (symbol ++
          (toString (|(moneyFmtAlign (moneyFmtFold m.units m.nanos)).1| +
            (moneyFmtRound (moneyFmtAlign (moneyFmtFold m.units m.nanos)).2 (min 9 dp)).2) ++
          (if 0 < min 9 dp then
            "." ++ padZeros (min 9 dp)
              (toString (moneyFmtRound (moneyFmtAlign (moneyFmtFold m.units m.nanos)).2
                (min 9 dp)).1)
           else ""))) := by
      rw [Money.toFormattedString]
      simp only [money_fmt_sign_spec m.units m.nanos]
    exact ⟨_, key⟩

/-- Witness for `money_to_formatted_string_c6`: precision 12 is clamped to 9
on a concrete amount. -/
theorem money_to_formatted_string_c6_witness :
    (Money.mk "USD" 1 999999999).toFormattedString "$" 12 =
      (Money.mk "USD" 1 999999999).toFormattedString "$" 9 ∧
    (Money.mk "USD" 1 999999999).toFormattedString "$" 12 = "$1.999999999" :=
  ⟨money_to_formatted_string_c6.1 _ "$" 12 (by omega), rfl⟩


/-- C1: `Duration::new(i64::MAX,0).checked_add(&Duration::new(1,0))` is an
overflow failure (`None`) — no wrapping — while
`Timestamp::new(i64::MAX,0) + Duration::new(1,0)` saturates: the result's
seconds stay clamped at `i64::MAX`, and the addition is a total function, so
no error occurs. -/
theorem duration_vs_timestamp_overflow_c1 :
    (Duration.new I64_MAX 0).checkedAdd (Duration.new 1 0) = none ∧
    Timestamp.addDur (Timestamp.new I64_MAX 0) (Duration.new 1 0) =
      ⟨I64_MAX, 0⟩ :=
  ⟨rfl, rfl⟩

/-- C9 (amended): `to_human_readable_string` skips zero components, joins the
remaining parts with spaces except the final two which join with "and",
renders a wholly-zero duration as "0 seconds", and prefixes "- " once before
the joined parts for a negative duration with at least two nonzero
components; when exactly one component is nonzero the single-part branch
omits the sign prefix. 3661 seconds renders as
"1 hour 1 minute and 1 second". -/
theorem duration_human_readable_c9 :
    Duration.toHumanReadableString ⟨3661, 0⟩ = "1 hour 1 minute and 1 second" ∧
    Duration.toHumanReadableString ⟨0, 0⟩ = "0 seconds" ∧
    Duration.toHumanReadableString ⟨3605, 0⟩ = "1 hour and 5 seconds" ∧
    Duration.toHumanReadableString ⟨-90, 0⟩ = "- 1 minute and 30 seconds" ∧
    Duration.toHumanReadableString ⟨-3661, 0⟩ = "- 1 hour 1 minute and 1 second" ∧
    Duration.toHumanReadableString ⟨-10, 0⟩ = "10 seconds" :=
  ⟨rfl, rfl, rfl, rfl, rfl, rfl⟩

/-- Counterexample to C9 as stated: `Duration { seconds: -10, nanos: 0 }` is
negative with exactly one nonzero component, but the formatter's single-part
branch never writes the sign: the output is "10 seconds", not
"- 10 seconds". -/
theorem duration_human_readable_c9_counterexample :
    (Duration.mk (-10) 0).isNegative = true ∧
    Duration.toHumanReadableString ⟨-10, 0⟩ = "10 seconds" ∧
    Duration.toHumanReadableString ⟨-10, 0⟩ ≠ "- 10 seconds" :=
  ⟨rfl, rfl, by decide⟩

end ProtoTypes
